import Mathlib

/-!
Verification of the ZSSP (ZeroTier Secure Session Protocol) core against its
natural-language specification.

This file shallowly embeds the parts of the Rust sources that the checked
claims are about:

- `src/zeta.rs`: `to_nonce` / `from_nonce`, `received_x2_trans` (ratchet key
  trial and ratchet durability), `received_k1_trans`, `received_k2_trans`,
  `received_payload_in_place`;
- `src/zssp.rs`: `send_with_fragmentation`, the receive-path counter
  pre-filter and the X3 assembly path;
- `src/symmetric_state.rs`: `SymmetricState::kbkdf`;
- `src/handshake_cache.rs`: `UnassociatedHandshakeCache`.

Bytes are modelled as `Nat` (each byte is < 256 at use sites), byte strings as
`List Nat`, and the millisecond clock as `Int` (the source uses `i64`).
Cryptographic primitives (AEAD, ECDH, KEM, HMAC) are out of scope of the
repository and are abstracted as oracle parameters recording the outcome of
each fallible call, exactly at the call sites of the source.

Several protocol constants live in `src/proto.rs`, which is not part of the
provided sources; those are modelled from the specification and each such
definition carries a doc comment saying so.
-/

namespace ZSSP

/-! ## Byte-string utilities -/

/-- Big-endian byte encoding of a natural number into `n` bytes, matching
`u64::to_be_bytes` and `u16::to_be_bytes` when the value fits. -/
def beBytes : Nat → Nat → List Nat
  | 0, _ => []
  | n + 1, c => beBytes n (c / 256) ++ [c % 256]

/-- Big-endian byte decoding, matching `u64::from_be_bytes`. -/
def beToNat (l : List Nat) : Nat :=
  l.foldl (fun a b => a * 256 + b) 0

/-! ## Nonce construction (`to_nonce` / `from_nonce`, src/zeta.rs lines 40-52) -/

/-- AES-GCM nonce size in bytes. Given by the specification
(`AES_GCM_IV_SIZE = 12`). -/
def AES_GCM_IV_SIZE : Nat := 12

/-- Size of the nonce portion of the wire header. Modelled from the spec:
the packet header is `[kid(4) | fragment_no(1) | fragment_count(1) |
nonce(10)]`, so the on-wire nonce is 10 bytes (the constant itself lives in
the missing `src/proto.rs`). -/
def PACKET_NONCE_SIZE : Nat := 10

/-- Translation of `to_nonce` (src/zeta.rs lines 40-46): a 12-byte buffer of
zeros with byte 3 set to the packet type and bytes 4..12 set to the big-endian
counter. -/
def to_nonce (packet_type counter : Nat) : List Nat :=
  [0, 0, 0, packet_type] ++ beBytes 8 counter

/-- Translation of `from_nonce` (src/zeta.rs lines 48-52): the packet type is
the byte just before the trailing 8 counter bytes, the counter is those 8
bytes decoded big-endian. -/
def from_nonce (n : List Nat) : Nat × Nat :=
  let c_start := n.length - 8
  (n.getD (c_start - 1) 0, beToNat (n.drop c_start))

/-! ## KBKDF (`SymmetricState::kbkdf`, src/symmetric_state.rs lines 41-71) -/

/-- Hash output length in bytes. Given by the specification (`HASHLEN = 64`). -/
def HASHLEN : Nat := 64

/-- Translation of the buffer built at the top of `kbkdf`
(src/symmetric_state.rs lines 50-55): a leading counter byte 1, the 4-byte
label, a zero byte, the 64-byte chaining key, and the big-endian `u16`
encoding of `num_outputs * 8 * HASHLEN` (`u16` arithmetic wraps mod 65536). -/
def kbkdfBuffer (label ck : List Nat) (num_outputs : Nat) : List Nat :=
  1 :: (label ++ 0 :: (ck ++ beBytes 2 (num_outputs * 8 * HASHLEN % 65536)))

/-- Translation of `SymmetricState::kbkdf` (src/symmetric_state.rs lines
41-71), with HMAC-SHA-512 abstracted as the parameter `hmac` (key, message).
Output 1 is always produced; outputs 2 and 3 are produced when requested, from
the same buffer with the leading byte rewritten to 2 resp. 3. -/
def kbkdf (hmac : List Nat → List Nat → List Nat) (input_key_material label ck : List Nat)
    (num_outputs : Nat) (want2 want3 : Bool) :
    List Nat × Option (List Nat) × Option (List Nat) :=
  let buffer := kbkdfBuffer label ck num_outputs
  let output1 := hmac input_key_material buffer
  let output2 := if want2 then some (hmac input_key_material (buffer.set 0 2)) else none
  let output3 := if want3 then some (hmac input_key_material (buffer.set 0 3)) else none
  (output1, output2, output3)

/-! ## Fragmentation (`send_with_fragmentation`, src/zssp.rs lines 75-108) -/

/-- Wire header size in bytes. Modelled from the spec: the header is
`[kid_recv(4) | fragment_no(1) | fragment_count(1) | nonce(10)]`, 16 bytes
(the constant itself lives in the missing `src/proto.rs`). -/
def HEADER_SIZE : Nat := 16

/-- Minimum transport MTU. Given by the specification
(`MIN_TRANSPORT_MTU = 128`); the constant itself lives in the missing
`src/proto.rs`. -/
def MIN_TRANSPORT_MTU : Nat := 128

/-- Byte offset of `fragment_no` in the header. Modelled from the spec header
layout (after the 4-byte `kid_recv`). -/
def FRAGMENT_NO_IDX : Nat := 4

/-- Byte offset of `fragment_count` in the header. Modelled from the spec
header layout. -/
def FRAGMENT_COUNT_IDX : Nat := 5

/-- Translation of the fragment loop of `send_with_fragmentation`
(src/zssp.rs lines 91-106). The first argument is the 16-byte header with
`fragment_count` already written; `base` and `rem` are
`fragment_base_size` and `fragment_size_remainder`; the `Nat` arguments are
the number of fragments still to emit and the current `fragment_no`; the last
argument is the remaining payload. Each fragment is the header with its own
`fragment_no` (a `u8`, hence mod 256) followed by its payload slice. The
optional header-obfuscation PRP (`hk_send`) is omitted: the claims concern
the un-obfuscated fragment contents, and the `send` closure is modelled as
always accepting. -/
def fragLoop (header : List Nat) (base rem : Nat) : Nat → Nat → List Nat → List (List Nat)
  | 0, _, _ => []
  | n + 1, fragment_no, payload =>
    (header.set FRAGMENT_NO_IDX (fragment_no % 256)
        ++ payload.take (base + if fragment_no < rem then 1 else 0))
      :: fragLoop header base rem n (fragment_no + 1)
          (payload.drop (base + if fragment_no < rem then 1 else 0))

/-- Translation of the `fragment_count` computation of
`send_with_fragmentation` (src/zssp.rs line 84): ceiling division of the
payload length by the payload MTU, written as in the source
(`payload_len.saturating_add(payload_mtu - 1) / payload_mtu`; the saturation
at `usize::MAX` cannot trigger for `Nat` and is omitted). -/
def fragment_count (mtu packet_len : Nat) : Nat :=
  (packet_len - HEADER_SIZE + (mtu - HEADER_SIZE - 1)) / (mtu - HEADER_SIZE)

/-- Translation of `send_with_fragmentation` (src/zssp.rs lines 75-108),
returning the list of emitted fragments. `fragment_base_size` and
`fragment_size_remainder` are the quotient and remainder of the payload
length by `fragment_count`, and the header template carries `fragment_count`
(a `u8`, hence mod 256) at `FRAGMENT_COUNT_IDX`. -/
def send_with_fragmentation (mtu : Nat) (headered_packet : List Nat) : List (List Nat) :=
  fragLoop
    ((headered_packet.take HEADER_SIZE).set FRAGMENT_COUNT_IDX
      (fragment_count mtu headered_packet.length % 256))
    ((headered_packet.length - HEADER_SIZE) / fragment_count mtu headered_packet.length)
    ((headered_packet.length - HEADER_SIZE) % fragment_count mtu headered_packet.length)
    (fragment_count mtu headered_packet.length) 0
    (headered_packet.drop HEADER_SIZE)

/-- Total number of payload bytes consumed by `fragLoop` over `n` fragments
starting at fragment number `f`. -/
def chunkTotal (base rem : Nat) : Nat → Nat → Nat
  | 0, _ => 0
  | n + 1, f => (base + if f < rem then 1 else 0) + chunkTotal base rem n (f + 1)

/-! ## Unassociated handshake cache (src/handshake_cache.rs)

The source keeps three parallel fixed-size arrays (`local_ids`, `timeouts`,
`handshakes`) indexed in lockstep; the embedding transposes them into one
list of slots, with the capacity left as the list length. The stored
`Arc<NoiseXKBobHandshakeState>` is abstracted as a `Nat` token. -/

/-- One slot of `CacheInner` (src/handshake_cache.rs lines 21-25): the
`local_ids`, `timeouts` and `handshakes` entries at one index. -/
structure HsSlot where
  local_id : Option Nat
  timeout : Int
  handshake : Option Nat
deriving DecidableEq

/-- The cleared slot value used by `remove` and `service`. -/
def emptyHsSlot : HsSlot := ⟨none, 0, none⟩

/-- Translation of `i64::saturating_add`. -/
def i64SatAdd (a b : Int) : Int :=
  max (-(2 ^ 63)) (min (a + b) (2 ^ 63 - 1))

/-- Outcome of the scan loop of `insert` (src/handshake_cache.rs lines
53-60): either an early `return` (the id is already present), or the index
to overwrite (`idx` stays 0 when the loop completes without a break). -/
inductive InsertScanResult where
  | noop
  | write (idx : Nat)
deriving DecidableEq

/-- Translation of the scan loop of `insert` (src/handshake_cache.rs lines
52-60): the first empty or expired slot is selected for writing, but the
function returns without writing if it encounters the id first. -/
def insertScan (local_id : Nat) (current_time : Int) : List HsSlot → Nat → InsertScanResult
  | [], _ => .write 0
  | s :: rest, i =>
    if s.local_id = none ∨ s.timeout < current_time then .write i
    else if s.local_id = some local_id then .noop
    else insertScan local_id current_time rest (i + 1)

/-- Translation of `UnassociatedHandshakeCache::insert`
(src/handshake_cache.rs lines 50-65). `timeout_ms` stands for
`Application::INITIAL_OFFER_TIMEOUT_MS`. -/
def hcInsert (cache : List HsSlot) (local_id state : Nat)
    (current_time timeout_ms : Int) : List HsSlot :=
  match insertScan local_id current_time cache 0 with
  | .noop => cache
  | .write idx =>
    cache.set idx ⟨some local_id, i64SatAdd current_time timeout_ms, some state⟩

/-- Translation of `UnassociatedHandshakeCache::remove`
(src/handshake_cache.rs lines 66-77): clears the first slot holding the id
and reports whether one was found. -/
def hcRemove (local_id : Nat) : List HsSlot → Bool × List HsSlot
  | [] => (false, [])
  | s :: rest =>
    if s.local_id = some local_id then (true, emptyHsSlot :: rest)
    else ((hcRemove local_id rest).1, s :: (hcRemove local_id rest).2)

/-- Translation of the expiry sweep of `UnassociatedHandshakeCache::service`
(src/handshake_cache.rs lines 83-95); the `has_pending` fast-path flag is a
concurrency optimization with no effect on the per-slot contents and is
omitted. -/
def hcService (current_time : Int) (cache : List HsSlot) : List HsSlot :=
  cache.map fun s =>
    if s.local_id.isSome ∧ s.timeout < current_time then emptyHsSlot else s

/-- An operation on the unassociated handshake cache. -/
inductive HcOp where
  | insert (local_id state : Nat) (current_time : Int)
  | remove (local_id : Nat)
  | service (current_time : Int)

/-- One step of the cache under an operation (`timeout_ms` is the fixed
`INITIAL_OFFER_TIMEOUT_MS`). -/
def hcStep (timeout_ms : Int) (cache : List HsSlot) : HcOp → List HsSlot
  | .insert id st now => hcInsert cache id st now timeout_ms
  | .remove id => (hcRemove id cache).2
  | .service now => hcService now cache

/-- Number of calls `remove local_id` that return `true` along a run of the
cache over a list of operations. -/
def hcRemoveSuccesses (timeout_ms : Int) (local_id : Nat) :
    List HsSlot → List HcOp → Nat
  | _, [] => 0
  | cache, .remove id :: ops =>
    (if id = local_id ∧ (hcRemove id cache).1 = true then 1 else 0)
      + hcRemoveSuccesses timeout_ms local_id (hcStep timeout_ms cache (.remove id)) ops
  | cache, .insert id st now :: ops =>
    hcRemoveSuccesses timeout_ms local_id (hcStep timeout_ms cache (.insert id st now)) ops
  | cache, .service now :: ops =>
    hcRemoveSuccesses timeout_ms local_id (hcStep timeout_ms cache (.service now)) ops

/-- Number of `insert local_id` calls in a list of operations. -/
def hcInsertCount (local_id : Nat) : List HcOp → Nat
  | [] => 0
  | .insert id _ _ :: ops => (if id = local_id then 1 else 0) + hcInsertCount local_id ops
  | _ :: ops => hcInsertCount local_id ops

/-- Number of slots currently storing `local_id`. -/
def hcMult (local_id : Nat) (cache : List HsSlot) : Nat :=
  cache.countP fun s => decide (s.local_id = some local_id)

/-! ## Byzantine faults and the receive-path counter checks -/

/-- Translation of `FaultType` (performance/src/result.rs). -/
inductive FaultType where
  | unknownLocalKeyId
  | invalidPacket
  | failedAuth
  | expiredCounter
  | outOfSequence
deriving DecidableEq

/-- The two fields of `ByzantineFault` the claims are about: the fault kind
and the `unnatural` flag, which is the second argument of the
`fault!` / `byzantine_fault!` macros (performance/src/result.rs). -/
structure Fault where
  error : FaultType
  unnatural : Bool
deriving DecidableEq

/-- The wire packet types, as listed in the specification (their byte values
live in the missing `src/proto.rs` and are irrelevant here). -/
inductive PacketType where
  | handshakeHello
  | handshakeResponse
  | handshakeCompletion
  | keyConfirm
  | ack
  | rekeyInit
  | rekeyComplete
  | sessionRejected
  | challenge
  | data
deriving DecidableEq

/-- Modelled from the spec: membership in `PACKET_TYPE_USES_COUNTER_RANGE`
(the range constant lives in the missing `src/proto.rs`). It covers the
session control and data types that consume send counters and excludes the
handshake and challenge types, which are handled by the other branches of
the receive pre-filter of src/zssp.rs lines 220-254. -/
def usesCounterRange : PacketType → Bool
  | .keyConfirm | .ack | .rekeyInit | .rekeyComplete | .sessionRejected | .data => true
  | _ => false

/-- Translation of the counter pre-filter block of `Context::receive`
(src/zssp.rs lines 220-254), run before defragmentation and authentication.
`beta_is_a1` abstracts `matches!(&state.beta, ZetaAutomata::A1(_))` and
`window_check` the side-effect-free `session.window.check(incoming_counter)`
call (the window lives in the missing `src/antireplay.rs`; per the spec it
returns false for counters outside the window or already accepted). Returns
the fault raised by this block, if any. -/
def receivePrefilter (max_skip_ahead : Nat) (packet_type : PacketType)
    (beta_is_a1 : Bool) (incoming_counter : Nat) (window_check : Bool) :
    Option Fault :=
  if packet_type = .handshakeResponse then
    if ¬ beta_is_a1 then some ⟨.outOfSequence, false⟩
    else if max_skip_ahead ≤ incoming_counter then some ⟨.expiredCounter, true⟩
    else none
  else if usesCounterRange packet_type then
    if ¬ window_check then some ⟨.expiredCounter, false⟩ else none
  else if packet_type = .handshakeCompletion then some ⟨.invalidPacket, false⟩
  else some ⟨.invalidPacket, true⟩

/-- AES-GCM tag size in bytes. Given by the specification
(`AES_GCM_TAG_SIZE = 16`). -/
def AES_GCM_TAG_SIZE : Nat := 16

/-- Translation of `received_payload_in_place` (src/zeta.rs lines
1343-1379). `kid_is_other` abstracts the two `key_ref` kid comparisons
(`some is_other` when one matches, `none` otherwise), `nk_present` whether
the selected slot holds a receive key, `decrypt_ok` the outcome of the AEAD
call, and `update_ok` the outcome of the post-authentication
`update_counter_window` call (the window lives in the missing
`src/antireplay.rs`). On success the payload is truncated by the tag. -/
def received_payload_in_place (payload : List Nat) (kid_is_other : Option Bool)
    (nk_present decrypt_ok update_ok : Bool) : Except Fault (List Nat) :=
  if payload.length < AES_GCM_TAG_SIZE then .error ⟨.failedAuth, true⟩
  else match kid_is_other with
    | none => .error ⟨.outOfSequence, false⟩
    | some _ =>
      if ¬ nk_present then .error ⟨.outOfSequence, true⟩
      else if ¬ decrypt_ok then .error ⟨.failedAuth, true⟩
      else if ¬ update_ok then .error ⟨.expiredCounter, true⟩
      else .ok (payload.take (payload.length - AES_GCM_TAG_SIZE))

/-! ## X3 (HANDSHAKE_COMPLETION) size gates -/

/-- Identity blob maximum size. Given by the specification
(`IDENTITY_MAX_SIZE = 4096`). -/
def IDENTITY_MAX_SIZE : Nat := 4096

/-- NIST P-384 public key size in bytes (src/crypto/p384.rs line 5). -/
def P384_PUBLIC_KEY_SIZE : Nat := 49

/-- Modelled from the spec: the maximum assembled size of an X3
(HANDSHAKE_COMPLETION) packet; the constant lives in the missing
`src/proto.rs`. X3 carries the encrypted static key (49 bytes) with its
16-byte tag, then the identity blob (at most 4096 bytes) with its 16-byte
tag. -/
def HANDSHAKE_COMPLETION_MAX_SIZE : Nat :=
  P384_PUBLIC_KEY_SIZE + AES_GCM_TAG_SIZE + IDENTITY_MAX_SIZE + AES_GCM_TAG_SIZE

/-- Modelled from the spec: the minimum assembled size of an X3 packet
(empty identity blob); the constant lives in the missing `src/proto.rs`. -/
def HANDSHAKE_COMPLETION_MIN_SIZE : Nat :=
  P384_PUBLIC_KEY_SIZE + AES_GCM_TAG_SIZE + AES_GCM_TAG_SIZE

/-- Translation of the X3 assembly of `Context::receive` (src/zssp.rs lines
420-441): for a multi-fragment packet the fragment payloads are accumulated
into an `ArrayVec` of capacity `HANDSHAKE_COMPLETION_MAX_SIZE` and overflow
of that capacity is rejected with `InvalidPacket`; a single-fragment packet
is passed through with no capacity check. The argument is the list of
fragment payloads (headers already stripped). -/
def x3Assemble (fragments : List (List Nat)) : Except Fault (List Nat) :=
  if 1 < fragments.length then
    if (fragments.map List.length).sum ≤ HANDSHAKE_COMPLETION_MAX_SIZE then
      .ok fragments.flatten
    else .error ⟨.invalidPacket, true⟩
  else .ok fragments.flatten

/-- Translation of the size gate at the top of `received_x3_trans`
(src/zeta.rs lines 630-634): only a minimum-size check is performed there. -/
def receivedX3SizeGate (x3 : List Nat) : Except Fault (List Nat) :=
  if x3.length < HANDSHAKE_COMPLETION_MIN_SIZE then .error ⟨.invalidPacket, true⟩
  else .ok x3

/-- Composition of the two size-relevant gates on the receive path of an X3
packet; the rest of `received_x3_trans` authenticates and never rejects for
size. -/
def x3SizeChecks (fragments : List (List Nat)) : Except Fault (List Nat) :=
  match x3Assemble fragments with
  | .error f => .error f
  | .ok x3 => receivedX3SizeGate x3

/-! ## Zeta transition algorithms (src/zeta.rs)

The transitions are embedded over the session state they read and write
(`MutableState`, src/zeta.rs lines 81-93), with the outcome of every
fallible cryptographic call supplied by an oracle structure with one field
per call site, and the application callbacks (`initiator_disallows_downgrade`,
`save_ratchet_state`) supplied as parameters. The derived key material is
abstracted as `Nat` tokens, and a sent packet is recorded as a tag plus a
flag saying whether its contents were computed under the keys newly derived
by the transition. -/

/-- Ratchet key and fingerprint size in bytes. Given by the specification
(`RATCHET_SIZE = 32`). -/
def RATCHET_SIZE : Nat := 32

/-- The all-zero ratchet key used for the downgrade trial
(src/zeta.rs line 543). -/
def zeroRatchetKey : List Nat := List.replicate RATCHET_SIZE 0

/-- Ratchet state as accessed by src/zeta.rs (a key, a fingerprint and the
chain length; `received_x2_trans` reads `.key` and `.chain_len` directly). -/
structure RatchetState where
  key : List Nat
  fingerprint : List Nat
  chain_len : Nat
deriving DecidableEq

/-- Translation of `Keys` (src/zeta.rs lines 114-117); the key-encryption
key is an abstract token. -/
structure Keys where
  kek : Option Nat
  kid : Option Nat
deriving DecidableEq

/-- Translation of `DuplexKey` (src/zeta.rs lines 107-111); the AEAD pool is
an abstract token. -/
structure DuplexKey where
  send : Keys
  recv : Keys
  nk : Option Nat
deriving DecidableEq

/-- Translation of `ZetaAutomata` (src/zeta.rs lines 136-155) with the
per-variant payloads abstracted away (their contents are consumed only by
the cryptographic calls, which the oracle stands in for). -/
inductive ZetaAutomata where
  | null
  | a1
  | a3
  | s1
  | s2
  | r1
  | r2
deriving DecidableEq

/-- Translation of `MutableState` (src/zeta.rs lines 81-93); the two
`DuplexKey` slots are the fields `keys0` and `keys1`, indexed by
`key_index ^ is_next` exactly as in the source. -/
structure MutableState where
  ratchet_state1 : RatchetState
  ratchet_state2 : Option RatchetState
  key_creation_counter : Nat
  key_index : Bool
  keys0 : DuplexKey
  keys1 : DuplexKey
  hk_send : Nat
  resend_timer : Int
  timeout_timer : Int
  beta : ZetaAutomata
deriving DecidableEq

/-- Translation of `MutableState::key_ref` (src/zeta.rs lines 197-199). -/
def MutableState.key_ref (st : MutableState) (is_next : Bool) : DuplexKey :=
  if xor st.key_index is_next then st.keys1 else st.keys0

/-- Write counterpart of `MutableState::key_mut` (src/zeta.rs lines
200-202). -/
def MutableState.setKey (st : MutableState) (is_next : Bool) (k : DuplexKey) :
    MutableState :=
  if xor st.key_index is_next then { st with keys1 := k } else { st with keys0 := k }

/-- Modelled from the spec: `expire` sets the automaton variant to `Null`
(it also deregisters the session kids from the context map, which lives
outside the per-session state modelled here; the method body is in a part of
the source that was not provided). -/
def expire (st : MutableState) : MutableState :=
  { st with beta := .null }

/-- Receive-path error: the relevant variants of `ReceiveError`
(performance/src/result.rs), with the storage error as a `Nat` token. -/
inductive RecvError where
  | byzantineFault (f : Fault)
  | ratchetIoError (e : Nat)
deriving DecidableEq

/-- Tag of a packet handed to the send closure by a transition. -/
inductive SentTag where
  | x3Handshake
  | k2Rekey
  | c1KeyConfirm
  | fromTimeout
deriving DecidableEq

/-- A packet handed to the send closure, with a flag recording whether its
contents were computed under the keys newly derived by the transition. -/
structure SentPacket where
  tag : SentTag
  usesNewKeys : Bool
deriving DecidableEq

/-- State of the ratchet key trial of `received_x2_trans`: the mutable
variables `ratchet_i`, `chain_len` and `result` of src/zeta.rs lines
528-547 (`found` carries the decrypted `kid_send` on success). -/
structure KeyTrial where
  ratchet_i : Nat
  chain_len : Nat
  found : Option Nat
deriving DecidableEq

/-- Translation of the ratchet key trial of `received_x2_trans`
(src/zeta.rs lines 516-547). `test` abstracts the `test_ratchet_key`
closure: for a candidate ratchet key it returns the decrypted nonzero
`kid_send` if the psk-mixed transcript authenticates the payload. The first
key tried is `ratchet_state1.key`; if that fails, `ratchet_i` becomes 2 and
`ratchet_state2.key` is tried when present; if still nothing authenticated
and the application does not disallow downgrades, the all-zero key is
tried with `chain_len` 0. -/
def tryRatchetKeys (test : List Nat → Option Nat) (rs1 : RatchetState)
    (rs2 : Option RatchetState) (initiator_disallows_downgrade : Bool) : KeyTrial :=
  let t1 : KeyTrial := ⟨1, rs1.chain_len, test rs1.key⟩
  let t2 : KeyTrial :=
    if t1.found = none then
      match rs2 with
      | some rs => ⟨2, rs.chain_len, test rs.key⟩
      | none => ⟨2, t1.chain_len, none⟩
    else t1
  if t2.found = none ∧ ¬ initiator_disallows_downgrade then
    ⟨t2.ratchet_i, 0, test zeroRatchetKey⟩
  else t2

/-- Oracle for `received_x2_trans`: one field per fallible cryptographic
call of src/zeta.rs lines 484-607, plus the derived key material as
abstract tokens and the `app.time()` reading. -/
structure X2Oracle where
  read_e_ok : Bool
  dh_ee_ok : Bool
  decrypt_ekem1_ok : Bool
  decap_ok : Bool
  test_ratchet_key : List Nat → Option Nat
  dh_se_ok : Bool
  new_ratchet_key : List Nat
  new_ratchet_fingerprint : List Nat
  kek_send : Nat
  kek_recv : Nat
  nk_pool : Nat
  current_time : Int

/-- The state written by the success path of `received_x2_trans`
(src/zeta.rs lines 595-607): the next key slot receives the chosen
`kid_send` and the derived keys, the old `ratchet_state1` moves to
`ratchet_state2`, the new ratchet becomes `ratchet_state1`, the
key-creation counter snapshots the send counter, the timers restart, and
the automaton moves to `A3`. -/
def x2SuccessState (settings_resend settings_initial_offer : Int)
    (o : X2Oracle) (disallows_downgrade : Bool)
    (st : MutableState) (send_counter kid_send : Nat) : MutableState :=
  let next := st.key_ref true
  let st2 := st.setKey true
    { next with
      send := { next.send with kid := some kid_send, kek := some o.kek_send },
      recv := { next.recv with kek := some o.kek_recv },
      nk := some o.nk_pool }
  { st2 with
    ratchet_state2 := some st.ratchet_state1,
    ratchet_state1 :=
      ⟨o.new_ratchet_key, o.new_ratchet_fingerprint,
        (tryRatchetKeys o.test_ratchet_key st.ratchet_state1 st.ratchet_state2
          disallows_downgrade).chain_len + 1⟩,
    key_creation_counter := send_counter,
    resend_timer := o.current_time + settings_resend,
    timeout_timer := o.current_time + settings_initial_offer,
    beta := .a3 }

/-- Translation of the closure of `received_x2_trans` (src/zeta.rs lines
484-613): the Noise message processing, the ratchet key trial, the X3
construction, `create_ratchet_state`, the `save_ratchet_state` call and, on
its success only, the state mutations of lines 595-607 (collected in
`x2SuccessState`). Returns the new state and the chosen `kid_send`. -/
def received_x2_inner (settings_resend settings_initial_offer : Int)
    (o : X2Oracle) (disallows_downgrade : Bool) (save_result : Except Nat Unit)
    (st : MutableState) (send_counter : Nat) :
    Except RecvError (MutableState × Nat) :=
  if ¬ st.beta = .a1 then .error (.byzantineFault ⟨.failedAuth, true⟩)
  else if ¬ o.read_e_ok = true then .error (.byzantineFault ⟨.failedAuth, true⟩)
  else if ¬ o.dh_ee_ok = true then .error (.byzantineFault ⟨.failedAuth, true⟩)
  else if ¬ o.decrypt_ekem1_ok = true then .error (.byzantineFault ⟨.failedAuth, true⟩)
  else if ¬ o.decap_ok = true then .error (.byzantineFault ⟨.failedAuth, true⟩)
  else
    match (tryRatchetKeys o.test_ratchet_key st.ratchet_state1 st.ratchet_state2
        disallows_downgrade).found with
    | none => .error (.byzantineFault ⟨.failedAuth, true⟩)
    | some kid_send =>
      if ¬ o.dh_se_ok = true then .error (.byzantineFault ⟨.failedAuth, true⟩)
      else
        match save_result with
        | .error e => .error (.ratchetIoError e)
        | .ok _ =>
          .ok (x2SuccessState settings_resend settings_initial_offer o
              disallows_downgrade st send_counter kid_send, kid_send)

/-- Translation of `received_x2_trans` (src/zeta.rs lines 456-620): the
early size, kid and counter-echo checks (as boolean gates), the closure
above, and the final match that runs `timeout_trans` on a Byzantine fault
or sends the X3 packet on success. `timeout_trans` is the abstract state
transformer plus sent packets of the timeout transition. Returns the
result, the final state, and the packets handed to the send closure. -/
def received_x2_trans (settings_resend settings_initial_offer : Int)
    (o : X2Oracle) (disallows_downgrade : Bool) (save_result : Except Nat Unit)
    (timeout_trans : MutableState → MutableState × List SentPacket)
    (st : MutableState) (send_counter : Nat) (kid : Nat)
    (x2_len_ok counter_echo_ok : Bool) :
    (Except RecvError Unit) × MutableState × List SentPacket :=
  if ¬ x2_len_ok = true then
    (.error (.byzantineFault ⟨.invalidPacket, true⟩), st, [])
  else if ¬ some kid = (st.key_ref true).recv.kid then
    (.error (.byzantineFault ⟨.unknownLocalKeyId, true⟩), st, [])
  else if ¬ counter_echo_ok = true then
    (.error (.byzantineFault ⟨.failedAuth, true⟩), st, [])
  else
    match received_x2_inner settings_resend settings_initial_offer o
        disallows_downgrade save_result st send_counter with
    | .error (.byzantineFault f) =>
      (.error (.byzantineFault f), (timeout_trans st).1, (timeout_trans st).2)
    | .error (.ratchetIoError e) => (.error (.ratchetIoError e), st, [])
    | .ok (st2, _) => (.ok (), st2, [⟨.x3Handshake, true⟩])

/-- Oracle for `received_k1_trans`: one field per fallible cryptographic
call of src/zeta.rs lines 1122-1199, the parsed `kid_send`, the `remap`
result, the derived key material, and `app.time()`. -/
structure K1Oracle where
  read_e_ok : Bool
  dh_es_ok : Bool
  dh_ss_ok : Bool
  decrypt_payload_ok : Bool
  kid_send : Option Nat
  dh_ee_ok : Bool
  dh_se_ok : Bool
  new_kid_recv : Nat
  new_ratchet_key : List Nat
  new_ratchet_fingerprint : List Nat
  kek_send : Nat
  kek_recv : Nat
  nk_pool : Nat
  current_time : Int

/-- Translation of the closure of `received_k1_trans` (src/zeta.rs lines
1122-1199): the Noise-KK message-1 processing, the K2 construction,
`remap` (which touches only the context session map, not the session
state), the new ratchet derivation, the `save_ratchet_state` call and, on
its success only, the mutations of lines 1177-1189 and the K2 send of lines
1191-1197 (which also increments the send counter). -/
def received_k1_inner (settings_resend settings_rekey_timeout : Int)
    (o : K1Oracle) (save_result : Except Nat Unit)
    (st : MutableState) (send_counter : Nat) :
    Except RecvError (MutableState × Nat × List SentPacket) :=
  if ¬ o.read_e_ok = true then .error (.byzantineFault ⟨.failedAuth, true⟩)
  else if ¬ o.dh_es_ok = true then .error (.byzantineFault ⟨.failedAuth, true⟩)
  else if ¬ o.dh_ss_ok = true then .error (.byzantineFault ⟨.failedAuth, true⟩)
  else if ¬ o.decrypt_payload_ok = true then .error (.byzantineFault ⟨.failedAuth, true⟩)
  else
    match o.kid_send with
    | none => .error (.byzantineFault ⟨.failedAuth, true⟩)
    | some kid_send =>
      if ¬ o.dh_ee_ok = true then .error (.byzantineFault ⟨.failedAuth, true⟩)
      else if ¬ o.dh_se_ok = true then .error (.byzantineFault ⟨.failedAuth, true⟩)
      else
        let new_ratchet_state : RatchetState :=
          ⟨o.new_ratchet_key, o.new_ratchet_fingerprint, st.ratchet_state1.chain_len + 1⟩
        match save_result with
        | .error e => .error (.ratchetIoError e)
        | .ok _ =>
          let st2 := st.setKey true
            { send := { kid := some kid_send, kek := some o.kek_send },
              recv := { kid := some o.new_kid_recv, kek := some o.kek_recv },
              nk := some o.nk_pool }
          .ok ({ st2 with
              ratchet_state2 := some st.ratchet_state1,
              ratchet_state1 := new_ratchet_state,
              key_creation_counter := send_counter,
              timeout_timer := o.current_time + settings_rekey_timeout,
              resend_timer := o.current_time + settings_resend,
              beta := .r2 },
            send_counter + 1, [⟨.k2Rekey, true⟩])

/-- Translation of `received_k1_trans` (src/zeta.rs lines 1076-1204): the
size, kid, role, outer-AEAD and counter-window gates, the closure above,
and the final `expire` on a Byzantine fault raised inside the closure.
Returns the result, the final state, the final send counter and the packets
handed to the send closure. -/
def received_k1_trans (settings_resend settings_rekey_timeout : Int)
    (o : K1Oracle) (save_result : Except Nat Unit)
    (st : MutableState) (was_bob : Bool) (send_counter : Nat) (kid : Nat)
    (k1_len_ok outer_decrypt_ok update_window_ok : Bool) :
    (Except RecvError Unit) × MutableState × Nat × List SentPacket :=
  if ¬ k1_len_ok = true then
    (.error (.byzantineFault ⟨.invalidPacket, true⟩), st, send_counter, [])
  else if ¬ some kid = (st.key_ref false).recv.kid then
    (.error (.byzantineFault ⟨.unknownLocalKeyId, false⟩), st, send_counter, [])
  else if ¬ (match st.beta with
      | .s2 => true
      | .r1 => was_bob
      | _ => false) = true then
    (.error (.byzantineFault ⟨.outOfSequence, false⟩), st, send_counter, [])
  else if ¬ outer_decrypt_ok = true then
    (.error (.byzantineFault ⟨.failedAuth, true⟩), st, send_counter, [])
  else if ¬ update_window_ok = true then
    (.error (.byzantineFault ⟨.expiredCounter, true⟩), st, send_counter, [])
  else
    match received_k1_inner settings_resend settings_rekey_timeout o save_result
        st send_counter with
    | .error (.byzantineFault f) =>
      (.error (.byzantineFault f), expire st, send_counter, [])
    | .error (.ratchetIoError e) =>
      (.error (.ratchetIoError e), st, send_counter, [])
    | .ok (st2, ctr2, sent) => (.ok (), st2, ctr2, sent)

/-- Oracle for `received_k2_trans`: one field per fallible cryptographic
call of src/zeta.rs lines 1238-1301, the parsed `kid_send`, the derived key
material, and `app.time()`. -/
structure K2Oracle where
  read_e_ok : Bool
  dh_ee_ok : Bool
  dh_se_ok : Bool
  decrypt_payload_ok : Bool
  kid_send : Option Nat
  new_ratchet_key : List Nat
  new_ratchet_fingerprint : List Nat
  kek_send : Nat
  kek_recv : Nat
  nk_pool : Nat
  current_time : Int

/-- Translation of the closure of `received_k2_trans` (src/zeta.rs lines
1238-1301): the Noise-KK message-2 processing (note the `kid_send` parse
failure is `InvalidPacket` here, line 1255), the new ratchet derivation,
the `save_ratchet_state` call and, on its success only, the mutations of
lines 1276-1287 (including the `key_index` flip) and the key-confirm send
of lines 1289-1296 (which also increments the send counter). -/
def received_k2_inner (settings_resend settings_rekey_timeout : Int)
    (o : K2Oracle) (save_result : Except Nat Unit)
    (st : MutableState) (send_counter : Nat) :
    Except RecvError (MutableState × Nat × List SentPacket) :=
  if ¬ o.read_e_ok = true then .error (.byzantineFault ⟨.failedAuth, true⟩)
  else if ¬ o.dh_ee_ok = true then .error (.byzantineFault ⟨.failedAuth, true⟩)
  else if ¬ o.dh_se_ok = true then .error (.byzantineFault ⟨.failedAuth, true⟩)
  else if ¬ o.decrypt_payload_ok = true then .error (.byzantineFault ⟨.failedAuth, true⟩)
  else
    match o.kid_send with
    | none => .error (.byzantineFault ⟨.invalidPacket, true⟩)
    | some kid_send =>
      let new_ratchet_state : RatchetState :=
        ⟨o.new_ratchet_key, o.new_ratchet_fingerprint, st.ratchet_state1.chain_len + 1⟩
      match save_result with
      | .error e => .error (.ratchetIoError e)
      | .ok _ =>
        let next := st.key_ref true
        let st2 := st.setKey true
          { next with
            send := { kid := some kid_send, kek := some o.kek_send },
            recv := { next.recv with kek := some o.kek_recv },
            nk := some o.nk_pool }
        .ok ({ st2 with
            ratchet_state1 := new_ratchet_state,
            key_index := ¬ st2.key_index,
            key_creation_counter := send_counter,
            timeout_timer := o.current_time + settings_rekey_timeout,
            resend_timer := o.current_time + settings_resend,
            beta := .s1 },
          send_counter + 1, [⟨.c1KeyConfirm, true⟩])

/-- Translation of `received_k2_trans` (src/zeta.rs lines 1206-1306): the
size, kid, automaton, outer-AEAD and counter-window gates, the closure
above, and the final `expire` on a Byzantine fault raised inside the
closure. Returns the result, the final state, the final send counter and
the packets handed to the send closure. -/
def received_k2_trans (settings_resend settings_rekey_timeout : Int)
    (o : K2Oracle) (save_result : Except Nat Unit)
    (st : MutableState) (send_counter : Nat) (kid : Nat)
    (k2_len_ok outer_decrypt_ok update_window_ok : Bool) :
    (Except RecvError Unit) × MutableState × Nat × List SentPacket :=
  if ¬ k2_len_ok = true then
    (.error (.byzantineFault ⟨.invalidPacket, true⟩), st, send_counter, [])
  else if ¬ some kid = (st.key_ref false).recv.kid then
    (.error (.byzantineFault ⟨.unknownLocalKeyId, false⟩), st, send_counter, [])
  else if ¬ st.beta = .r1 then
    (.error (.byzantineFault ⟨.outOfSequence, false⟩), st, send_counter, [])
  else if ¬ outer_decrypt_ok = true then
    (.error (.byzantineFault ⟨.failedAuth, true⟩), st, send_counter, [])
  else if ¬ update_window_ok = true then
    (.error (.byzantineFault ⟨.expiredCounter, true⟩), st, send_counter, [])
  else
    match received_k2_inner settings_resend settings_rekey_timeout o save_result
        st send_counter with
    | .error (.byzantineFault f) =>
      (.error (.byzantineFault f), expire st, send_counter, [])
    | .error (.ratchetIoError e) =>
      (.error (.ratchetIoError e), st, send_counter, [])
    | .ok (st2, ctr2, sent) => (.ok (), st2, ctr2, sent)

/-- Concrete session state in `A1` used by witnesses: the next key slot is
`keys1` (`key_index = false`), holding receive kid 4. -/
def witX2St : MutableState :=
  { ratchet_state1 := ⟨List.replicate 32 1, List.replicate 32 2, 5⟩
    ratchet_state2 := none
    key_creation_counter := 0
    key_index := false
    keys0 := ⟨⟨none, none⟩, ⟨none, none⟩, none⟩
    keys1 := ⟨⟨none, none⟩, ⟨none, some 4⟩, none⟩
    hk_send := 0
    resend_timer := 0
    timeout_timer := 0
    beta := .a1 }

/-- Concrete X2 oracle used by witnesses: every cryptographic call succeeds
and every candidate ratchet key authenticates kid 7. -/
def witX2Oracle : X2Oracle :=
  { read_e_ok := true
    dh_ee_ok := true
    decrypt_ekem1_ok := true
    decap_ok := true
    test_ratchet_key := fun _ => some 7
    dh_se_ok := true
    new_ratchet_key := List.replicate 32 3
    new_ratchet_fingerprint := List.replicate 32 4
    kek_send := 21
    kek_recv := 22
    nk_pool := 23
    current_time := 1000 }

/-- Concrete session state in `S2` used by witnesses: the current key slot
is `keys0` (`key_index = false`), holding receive kid 9. -/
def witK1St : MutableState :=
  { witX2St with
    keys0 := ⟨⟨some 31, some 8⟩, ⟨some 32, some 9⟩, some 33⟩
    beta := .s2 }

/-- Concrete K1 oracle used by witnesses: every cryptographic call
succeeds. -/
def witK1Oracle : K1Oracle :=
  { read_e_ok := true
    dh_es_ok := true
    dh_ss_ok := true
    decrypt_payload_ok := true
    kid_send := some 11
    dh_ee_ok := true
    dh_se_ok := true
    new_kid_recv := 12
    new_ratchet_key := List.replicate 32 3
    new_ratchet_fingerprint := List.replicate 32 4
    kek_send := 21
    kek_recv := 22
    nk_pool := 23
    current_time := 1000 }

/-- Concrete session state in `R1` used by witnesses. -/
def witK2St : MutableState :=
  { witK1St with beta := .r1 }

/-- Concrete K2 oracle used by witnesses: every cryptographic call
succeeds. -/
def witK2Oracle : K2Oracle :=
  { read_e_ok := true
    dh_ee_ok := true
    dh_se_ok := true
    decrypt_payload_ok := true
    kid_send := some 11
    new_ratchet_key := List.replicate 32 3
    new_ratchet_fingerprint := List.replicate 32 4
    kek_send := 21
    kek_recv := 22
    nk_pool := 23
    current_time := 1000 }

/-- X2 oracle whose ratchet key trial always fails, used by the C3
witness. -/
def witX2OracleFail : X2Oracle :=
  { witX2Oracle with test_ratchet_key := fun _ => none }

theorem beBytes_length (n c : Nat) : (beBytes n c).length = n := by
  induction n generalizing c with
  | zero => rfl
  | succ k ih => simp [beBytes, ih]

theorem beToNat_append_singleton (l : List Nat) (b : Nat) :
    beToNat (l ++ [b]) = beToNat l * 256 + b := by
  simp [beToNat, List.foldl_append]

theorem beToNat_beBytes (n c : Nat) : beToNat (beBytes n c) = c % 256 ^ n := by
  induction n generalizing c with
  | zero => simp [beBytes, beToNat, Nat.mod_one]
  | succ k ih =>
    rw [beBytes, beToNat_append_singleton, ih, Nat.pow_succ,
      Nat.mul_comm (256 ^ k) 256, Nat.mod_mul]
    omega

theorem beToNat_beBytes_of_lt (n c : Nat) (h : c < 256 ^ n) :
    beToNat (beBytes n c) = c := by
  rw [beToNat_beBytes, Nat.mod_eq_of_lt h]

/-- C4: for every packet-type byte `t` and 64-bit counter `c`, `to_nonce t c`
is 12 bytes long, consists of three zero bytes, then `t`, then the 8-byte
big-endian encoding of `c` (which really decodes back to `c`), and
`from_nonce (to_nonce t c) = (t, c)`. -/
theorem to_nonce_from_nonce_roundtrip (t c : Nat) (ht : t < 256) (hc : c < 2 ^ 64) :
    (to_nonce t c).length = AES_GCM_IV_SIZE ∧
    (to_nonce t c).take 3 = [0, 0, 0] ∧
    (to_nonce t c).getD 3 0 = t ∧
    (to_nonce t c).drop 4 = beBytes 8 c ∧
    beToNat (beBytes 8 c) = c ∧
    from_nonce (to_nonce t c) = (t, c) := by
  have hlen : (to_nonce t c).length = 12 := by
    simp [to_nonce, beBytes_length]
  have hdec : beToNat (beBytes 8 c) = c := by
    apply beToNat_beBytes_of_lt
    have : (256 : Nat) ^ 8 = 2 ^ 64 := by norm_num
    omega
  refine ⟨hlen, rfl, rfl, rfl, hdec, ?_⟩
  simp only [from_nonce, hlen]
  simp [to_nonce, hdec]

/-- Witness for C4 at `t = 7`, `c = 300`. -/
theorem to_nonce_from_nonce_roundtrip_witness :
    (7 : Nat) < 256 ∧ (300 : Nat) < 2 ^ 64 ∧
    from_nonce (to_nonce 7 300) = (7, 300) := by
  refine ⟨by norm_num, by norm_num, ?_⟩
  exact (to_nonce_from_nonce_roundtrip 7 300 (by norm_num) (by norm_num)).2.2.2.2.2

/-- C5: for each requested output `i` of the kbkdf derivation (`i` in
1, 2, 3), the message fed to HMAC is exactly `[i | label(4) | 0x00 | ck(64) |
L be-u16]` with `L = num_outputs * 8 * 64`, the HMAC key is the supplied input
key material, the buffers differ only in the leading byte, and (given the
4-byte label and 64-byte chaining key) the buffer is 72 bytes long. -/
theorem kbkdf_messages (hmac : List Nat → List Nat → List Nat)
    (ikm label ck : List Nat) (n : Nat) (hn : n ≤ 3)
    (hlabel : label.length = 4) (hck : ck.length = 64) :
    kbkdf hmac ikm label ck n true true =
      (hmac ikm (1 :: (label ++ 0 :: (ck ++ beBytes 2 (n * 8 * 64)))),
       some (hmac ikm (2 :: (label ++ 0 :: (ck ++ beBytes 2 (n * 8 * 64))))),
       some (hmac ikm (3 :: (label ++ 0 :: (ck ++ beBytes 2 (n * 8 * 64)))))) ∧
    (kbkdfBuffer label ck n).length = 72 := by
  have hmod : n * 8 * HASHLEN % 65536 = n * 8 * 64 := by
    have : n * 8 * HASHLEN = n * 8 * 64 := by simp [HASHLEN]
    rw [this, Nat.mod_eq_of_lt (by omega)]
  constructor
  · simp [kbkdf, kbkdfBuffer, hmod, List.set]
  · simp [kbkdfBuffer, hlabel, hck, beBytes_length]

/-- Witness for C5 at a concrete label and chaining key with three outputs. -/
theorem kbkdf_messages_witness :
    (3 : Nat) ≤ 3 ∧ (List.replicate 4 9).length = 4 ∧
    (List.replicate 64 1).length = 64 ∧
    (kbkdfBuffer (List.replicate 4 9) (List.replicate 64 1) 3).length = 72 := by
  refine ⟨by norm_num, by simp, by simp, ?_⟩
  exact (kbkdf_messages (fun _ m => m) [] (List.replicate 4 9) (List.replicate 64 1) 3
    (by norm_num) (by simp) (by simp)).2

theorem fragLoop_length (header : List Nat) (base rem : Nat) :
    ∀ n f payload, (fragLoop header base rem n f payload).length = n := by
  intro n
  induction n with
  | zero => intro f payload; rfl
  | succ k ih => intro f payload; simp [fragLoop, ih]

theorem chunkTotal_eq (base rem : Nat) :
    ∀ n f, chunkTotal base rem n f = n * base + (min rem (f + n) - min rem f) := by
  intro n
  induction n with
  | zero => intro f; simp [chunkTotal]
  | succ k ih =>
    intro f
    rw [chunkTotal, ih (f + 1)]
    have hm : (k + 1) * base = k * base + base := Nat.succ_mul k base
    by_cases h : f < rem <;> simp [h] <;> omega

theorem chunkTotal_top (p count : Nat) (hc : 0 < count) :
    chunkTotal (p / count) (p % count) count 0 = p := by
  rw [chunkTotal_eq]
  have h1 := Nat.div_add_mod p count
  have h2 : p % count < count := Nat.mod_lt _ hc
  omega

theorem fragLoop_join (header : List Nat) (base rem : Nat)
    (hh : header.length = HEADER_SIZE) :
    ∀ n f payload,
      ((fragLoop header base rem n f payload).map (fun l => l.drop HEADER_SIZE)).flatten
        = payload.take (chunkTotal base rem n f) := by
  intro n
  induction n with
  | zero => intro f payload; simp [fragLoop, chunkTotal]
  | succ k ih =>
    intro f payload
    have hset : (header.set FRAGMENT_NO_IDX (f % 256)).length = HEADER_SIZE := by
      simp [hh]
    rw [fragLoop]
    set sz := base + if f < rem then 1 else 0 with hszdef
    have hdropnil : List.drop HEADER_SIZE (header.set FRAGMENT_NO_IDX (f % 256)) = [] := by
      rw [← hset]
      exact List.drop_length _
    simp only [List.map_cons, List.flatten_cons, ih]
    rw [List.drop_append_eq_append_drop, hset, Nat.sub_self, List.drop_zero, hdropnil,
      List.nil_append]
    rw [chunkTotal, ← hszdef]
    exact (List.take_add _ _ _).symm

theorem fragLoop_get (header : List Nat) (base rem : Nat)
    (hh : header.length = HEADER_SIZE) :
    ∀ n f payload, payload.length = chunkTotal base rem n f → ∀ i, i < n →
      ((fragLoop header base rem n f payload).getD i []).take HEADER_SIZE
          = header.set FRAGMENT_NO_IDX ((f + i) % 256) ∧
      ((fragLoop header base rem n f payload).getD i []).length
          = HEADER_SIZE + base + (if f + i < rem then 1 else 0) := by
  intro n
  induction n with
  | zero => intro f payload hp i hi; exact absurd hi (Nat.not_lt_zero i)
  | succ k ih =>
    intro f payload hp i hi
    have hset : (header.set FRAGMENT_NO_IDX (f % 256)).length = HEADER_SIZE := by
      simp [hh]
    rw [chunkTotal] at hp
    rw [fragLoop]
    set sz := base + if f < rem then 1 else 0 with hszdef
    have hsz : (payload.take sz).length = sz := by
      simp only [List.length_take]
      omega
    have htake : List.take HEADER_SIZE (header.set FRAGMENT_NO_IDX (f % 256))
        = header.set FRAGMENT_NO_IDX (f % 256) := by
      rw [← hset]
      exact List.take_length _
    match i with
    | 0 =>
      refine ⟨?_, ?_⟩
      · simp only [List.getD_cons_zero, Nat.add_zero]
        rw [List.take_append_eq_append_take, hset, Nat.sub_self, List.take_zero,
          List.append_nil, htake]
      · simp only [List.getD_cons_zero, List.length_append, hset, hsz, Nat.add_zero]
        rw [hszdef, Nat.add_assoc]
    | j + 1 =>
      have hdroplen : (payload.drop sz).length = chunkTotal base rem k (f + 1) := by
        simp only [List.length_drop]
        omega
      have hrec := ih (f + 1) (payload.drop sz) hdroplen j (by omega)
      simp only [List.getD_cons_succ]
      refine ⟨?_, ?_⟩
      · rw [hrec.1]
        congr 1
        omega
      · rw [hrec.2]
        have harith : f + 1 + j = f + (j + 1) := by omega
        rw [harith]

/-- Ceiling-division bounds for `fragment_count`: the payload fits in
`count` fragments of `payload_mtu` bytes, and does not fit in `count - 1`. -/
theorem fragment_count_bounds (p pm : Nat) (hpm : 0 < pm) (hp : 0 < p) :
    p ≤ ((p + (pm - 1)) / pm) * pm ∧ (((p + (pm - 1)) / pm) - 1) * pm < p ∧
    1 ≤ (p + (pm - 1)) / pm := by
  have hdm := Nat.div_add_mod (p + (pm - 1)) pm
  have hmod : (p + (pm - 1)) % pm < pm := Nat.mod_lt _ hpm
  have hcomm : ((p + (pm - 1)) / pm) * pm = pm * ((p + (pm - 1)) / pm) := Nat.mul_comm _ _
  have hsub : (((p + (pm - 1)) / pm) - 1) * pm = ((p + (pm - 1)) / pm) * pm - 1 * pm :=
    (Nat.sub_mul _ _ _)
  have hone : 1 ≤ (p + (pm - 1)) / pm := by
    rw [Nat.le_div_iff_mul_le hpm]
    omega
  refine ⟨by omega, ?_, hone⟩
  rw [hsub]
  omega

/-- Per-fragment payload size bound: each fragment carries at most
`payload_mtu` payload bytes. -/
theorem frag_size_le (p pm count : Nat) (hc : 0 < count) (hub : p ≤ count * pm)
    (i : Nat) :
    p / count + (if i < p % count then 1 else 0) ≤ pm := by
  by_cases hrem : p % count = 0
  · have : p / count ≤ (count * pm) / count := Nat.div_le_div_right hub
    rw [Nat.mul_div_cancel_left _ hc] at this
    simp [hrem]
    omega
  · have hcm : count * pm = pm * count := Nat.mul_comm count pm
    have hlt : p < pm * count := by
      rcases Nat.lt_or_ge p (pm * count) with h | h
      · exact h
      · exfalso
        have : p = pm * count := by omega
        rw [this, Nat.mul_mod_left] at hrem
        exact hrem rfl
    have : p / count < pm := by
      rw [Nat.div_lt_iff_lt_mul hc]
      exact hlt
    split <;> omega

/-- C2: for every headered packet longer than `HEADER_SIZE` and every mtu of
at least `MIN_TRANSPORT_MTU`, `send_with_fragmentation` emits exactly
`fragment_count` fragments, where `fragment_count` is the ceiling of the
payload length over the payload mtu (characterized by its two defining
inequalities); each fragment starts with the original 16-byte header carrying
its own `fragment_no` and the common `fragment_count` (each a `u8`, mod 256);
exactly the first `payload_len mod fragment_count` fragments are one byte
longer than the rest; every fragment is at most `mtu` bytes; and the
concatenation of the fragment payloads equals the original payload. -/
theorem send_with_fragmentation_spec (pkt : List Nat) (mtu : Nat)
    (hL : HEADER_SIZE < pkt.length) (hM : MIN_TRANSPORT_MTU ≤ mtu) :
    (send_with_fragmentation mtu pkt).length = fragment_count mtu pkt.length ∧
    (pkt.length - HEADER_SIZE ≤ fragment_count mtu pkt.length * (mtu - HEADER_SIZE) ∧
      (fragment_count mtu pkt.length - 1) * (mtu - HEADER_SIZE) < pkt.length - HEADER_SIZE) ∧
    (∀ i, i < fragment_count mtu pkt.length →
      ((send_with_fragmentation mtu pkt).getD i []).take HEADER_SIZE
        = ((pkt.take HEADER_SIZE).set FRAGMENT_COUNT_IDX
            (fragment_count mtu pkt.length % 256)).set FRAGMENT_NO_IDX (i % 256)) ∧
    (∀ i, i < fragment_count mtu pkt.length →
      ((send_with_fragmentation mtu pkt).getD i []).length
        = HEADER_SIZE + (pkt.length - HEADER_SIZE) / fragment_count mtu pkt.length
            + (if i < (pkt.length - HEADER_SIZE) % fragment_count mtu pkt.length
               then 1 else 0)) ∧
    (∀ i, i < fragment_count mtu pkt.length →
      ((send_with_fragmentation mtu pkt).getD i []).length ≤ mtu) ∧
    ((send_with_fragmentation mtu pkt).map (fun l => l.drop HEADER_SIZE)).flatten
      = pkt.drop HEADER_SIZE := by
  have hHS : HEADER_SIZE = 16 := rfl
  have hpm : 0 < mtu - HEADER_SIZE := by
    simp only [MIN_TRANSPORT_MTU] at hM
    omega
  have hp : 0 < pkt.length - HEADER_SIZE := by omega
  obtain ⟨hub, hlb, hone⟩ :=
    fragment_count_bounds (pkt.length - HEADER_SIZE) (mtu - HEADER_SIZE) hpm hp
  have hcount : fragment_count mtu pkt.length = (pkt.length - HEADER_SIZE
      + (mtu - HEADER_SIZE - 1)) / (mtu - HEADER_SIZE) := rfl
  have hcpos : 0 < fragment_count mtu pkt.length := by rw [hcount]; omega
  have hhlen : ((pkt.take HEADER_SIZE).set FRAGMENT_COUNT_IDX
      (fragment_count mtu pkt.length % 256)).length = HEADER_SIZE := by
    simp only [List.length_set, List.length_take]
    omega
  have hplen : (pkt.drop HEADER_SIZE).length
      = chunkTotal ((pkt.length - HEADER_SIZE) / fragment_count mtu pkt.length)
          ((pkt.length - HEADER_SIZE) % fragment_count mtu pkt.length)
          (fragment_count mtu pkt.length) 0 := by
    rw [chunkTotal_top _ _ hcpos]
    simp only [List.length_drop]
  have hget := fragLoop_get _ _ _ hhlen (fragment_count mtu pkt.length) 0
    (pkt.drop HEADER_SIZE) hplen
  refine ⟨?_, ⟨by rw [hcount]; exact hub, by rw [hcount]; exact hlb⟩, ?_, ?_, ?_, ?_⟩
  · rw [send_with_fragmentation, fragLoop_length]
  · intro i hi
    have := (hget i hi).1
    rw [send_with_fragmentation, this]
    simp
  · intro i hi
    have := (hget i hi).2
    rw [send_with_fragmentation, this]
    simp only [Nat.zero_add]
  · intro i hi
    have := (hget i hi).2
    rw [send_with_fragmentation, this]
    have hsz := frag_size_le (pkt.length - HEADER_SIZE) (mtu - HEADER_SIZE)
      (fragment_count mtu pkt.length) hcpos (by rw [hcount] at *; omega) i
    simp only [Nat.zero_add] at *
    omega
  · rw [send_with_fragmentation, fragLoop_join _ _ _ hhlen, ← hplen, List.take_length]

/-- Witness for C2 on a concrete 131-byte packet at mtu 128 (payload 115,
two fragments of 58 and 57 payload bytes). -/
theorem send_with_fragmentation_spec_witness :
    HEADER_SIZE < (List.range 131).length ∧ MIN_TRANSPORT_MTU ≤ 128 ∧
    (send_with_fragmentation 128 (List.range 131)).length
      = fragment_count 128 (List.range 131).length := by
  refine ⟨by simp [HEADER_SIZE], by simp [MIN_TRANSPORT_MTU], ?_⟩
  exact (send_with_fragmentation_spec (List.range 131) 128 (by simp [HEADER_SIZE])
    (by simp [MIN_TRANSPORT_MTU])).1

/-- C10: for every mtu of at least `MIN_TRANSPORT_MTU`, if the headered
packet is strictly longer than `HEADER_SIZE` then `fragment_count` is at
least 1 (so the quotient and remainder of the payload length by
`fragment_count` are well defined) and the function emits exactly
`fragment_count` (hence at least one) fragments; and the non-empty-payload
hypothesis is required: at total length exactly `HEADER_SIZE` the computed
`fragment_count` is 0. -/
theorem fragment_count_pos (pkt : List Nat) (mtu : Nat)
    (hM : MIN_TRANSPORT_MTU ≤ mtu) :
    (HEADER_SIZE < pkt.length →
      1 ≤ fragment_count mtu pkt.length ∧
      (send_with_fragmentation mtu pkt).length = fragment_count mtu pkt.length ∧
      send_with_fragmentation mtu pkt ≠ []) ∧
    fragment_count mtu HEADER_SIZE = 0 := by
  have hpm : 0 < mtu - HEADER_SIZE := by
    simp only [MIN_TRANSPORT_MTU] at hM
    simp only [HEADER_SIZE]
    omega
  constructor
  · intro hL
    have hp : 0 < pkt.length - HEADER_SIZE := by omega
    obtain ⟨_, _, hone⟩ :=
      fragment_count_bounds (pkt.length - HEADER_SIZE) (mtu - HEADER_SIZE) hpm hp
    have hlen : (send_with_fragmentation mtu pkt).length
        = fragment_count mtu pkt.length := by
      rw [send_with_fragmentation, fragLoop_length]
    refine ⟨hone, hlen, ?_⟩
    intro hnil
    rw [hnil] at hlen
    simp only [List.length_nil] at hlen
    rw [fragment_count] at hlen
    omega
  · rw [fragment_count, Nat.sub_self, Nat.zero_add]
    exact Nat.div_eq_of_lt (by omega)

/-- Witness for C10 on a concrete 17-byte packet at mtu 128. -/
theorem fragment_count_pos_witness :
    MIN_TRANSPORT_MTU ≤ 128 ∧ HEADER_SIZE < (List.range 17).length ∧
    1 ≤ fragment_count 128 (List.range 17).length := by
  refine ⟨by simp [MIN_TRANSPORT_MTU], by simp [HEADER_SIZE], ?_⟩
  exact ((fragment_count_pos (List.range 17) 128 (by simp [MIN_TRANSPORT_MTU])).1
    (by simp [HEADER_SIZE])).1

/-- C6 counterexample: a cache whose slot 1 stores id 5 with an unexpired
timeout (100, at current time 0), while slot 0 is empty. The scan breaks at
the empty slot 0 before reaching the stored copy, so `insert` writes a second
copy of id 5 instead of being a no-op, and the cache changes. -/
theorem hcInsert_duplicate_counterexample :
    ([⟨none, 0, none⟩, ⟨some 5, 100, some 7⟩] : List HsSlot).getD 1 emptyHsSlot
        = ⟨some 5, 100, some 7⟩ ∧
    ¬ ((100 : Int) < 0) ∧
    hcInsert [⟨none, 0, none⟩, ⟨some 5, 100, some 7⟩] 5 7 0 1000
      ≠ [⟨none, 0, none⟩, ⟨some 5, 100, some 7⟩] := by
  decide

theorem insertScan_noop (local_id : Nat) (now : Int) :
    ∀ (cache : List HsSlot) (i k : Nat), i < cache.length →
      (cache.getD i emptyHsSlot).local_id = some local_id →
      ¬ (cache.getD i emptyHsSlot).timeout < now →
      (∀ j, j < i → (cache.getD j emptyHsSlot).local_id ≠ none ∧
        ¬ (cache.getD j emptyHsSlot).timeout < now) →
      insertScan local_id now cache k = .noop := by
  intro cache
  induction cache with
  | nil => intro i k hi _ _ _; exact absurd hi (by simp)
  | cons s rest ih =>
    intro i k hi hid hto hprev
    match i with
    | 0 =>
      simp only [List.getD_cons_zero] at hid hto
      rw [insertScan, if_neg (by simp [hid, hto]), if_pos hid]
    | i2 + 1 =>
      have h0 := hprev 0 (by omega)
      simp only [List.getD_cons_zero] at h0
      rw [insertScan, if_neg (by simp [h0.1, h0.2])]
      by_cases hid0 : s.local_id = some local_id
      · rw [if_pos hid0]
      · rw [if_neg hid0]
        refine ih i2 (k + 1) (by simpa using hi) (by simpa using hid)
          (by simpa using hto) ?_
        intro j hj
        have := hprev (j + 1) (by omega)
        simpa using this

/-- C6 amended: duplicate `insert` for an id already stored in a slot with an
unexpired timeout is a no-op provided every slot before the stored one is
occupied and unexpired (otherwise the scan breaks at the earlier empty or
expired slot and writes a second copy there). -/
theorem hcInsert_duplicate_noop (cache : List HsSlot) (local_id state : Nat)
    (now timeout_ms : Int) (i : Nat) (hi : i < cache.length)
    (hid : (cache.getD i emptyHsSlot).local_id = some local_id)
    (hto : ¬ (cache.getD i emptyHsSlot).timeout < now)
    (hprev : ∀ j, j < i → (cache.getD j emptyHsSlot).local_id ≠ none ∧
      ¬ (cache.getD j emptyHsSlot).timeout < now) :
    hcInsert cache local_id state now timeout_ms = cache := by
  rw [hcInsert, insertScan_noop local_id now cache i 0 hi hid hto hprev]

/-- Witness for the amended C6 on a one-slot cache storing id 5. -/
theorem hcInsert_duplicate_noop_witness :
    (0 : Nat) < ([⟨some 5, 100, some 7⟩] : List HsSlot).length ∧
    hcInsert [⟨some 5, 100, some 7⟩] 5 9 0 1000 = [⟨some 5, 100, some 7⟩] := by
  refine ⟨by simp, ?_⟩
  exact hcInsert_duplicate_noop [⟨some 5, 100, some 7⟩] 5 9 0 1000 0 (by simp)
    (by decide) (by decide) (fun j hj => absurd hj (by omega))

/-- C7 counterexample: starting from an empty two-slot cache, insert ids 1
and 2, remove id 1 (freeing slot 0), insert id 2 again (the scan breaks at
the freed slot 0 before seeing the copy in slot 1, duplicating id 2), and
then remove id 2 twice. Both removes succeed with no insert for id 2 in
between. -/
theorem hcRemove_twice_counterexample :
    (hcRemove 1 (hcInsert (hcInsert [emptyHsSlot, emptyHsSlot] 1 10 0 100)
      2 20 0 100)).1 = true ∧
    (hcRemove 2 (hcInsert (hcRemove 1 (hcInsert
      (hcInsert [emptyHsSlot, emptyHsSlot] 1 10 0 100) 2 20 0 100)).2
      2 20 0 100)).1 = true ∧
    (hcRemove 2 (hcRemove 2 (hcInsert (hcRemove 1 (hcInsert
      (hcInsert [emptyHsSlot, emptyHsSlot] 1 10 0 100) 2 20 0 100)).2
      2 20 0 100)).2).1 = true := by
  decide

theorem hcMult_remove (id local_id : Nat) : ∀ cache : List HsSlot,
    hcMult local_id (hcRemove id cache).2
        + (if id = local_id ∧ (hcRemove id cache).1 = true then 1 else 0)
      ≤ hcMult local_id cache := by
  intro cache
  induction cache with
  | nil => simp [hcRemove, hcMult]
  | cons s rest ih =>
    rw [hcRemove]
    by_cases hhead : s.local_id = some id
    · rw [if_pos hhead]
      by_cases heq : id = local_id
      · subst heq
        simp [hcMult, List.countP_cons, emptyHsSlot, hhead]
      · have hne : ¬ s.local_id = some local_id := by
          rw [hhead]
          simp [heq]
        simp [hcMult, List.countP_cons, heq, hne, emptyHsSlot]
    · rw [if_neg hhead]
      simp only [hcMult, List.countP_cons] at ih ⊢
      omega

theorem hcMult_set_le (local_id : Nat) (s2 : HsSlot) :
    ∀ (cache : List HsSlot) (k : Nat),
      hcMult local_id (cache.set k s2)
        ≤ hcMult local_id cache + (if s2.local_id = some local_id then 1 else 0) := by
  intro cache
  induction cache with
  | nil => intro k; simp [hcMult]
  | cons s rest ih =>
    intro k
    match k with
    | 0 =>
      by_cases h2 : s2.local_id = some local_id <;>
        by_cases hs : s.local_id = some local_id <;>
          simp [List.set_cons_zero, hcMult, List.countP_cons, h2, hs]
    | k2 + 1 =>
      have := ih k2
      simp only [hcMult] at this ⊢
      simp only [List.set_cons_succ, List.countP_cons]
      omega

theorem hcMult_insert_le (local_id id st : Nat) (now timeout_ms : Int)
    (cache : List HsSlot) :
    hcMult local_id (hcInsert cache id st now timeout_ms)
      ≤ hcMult local_id cache + (if id = local_id then 1 else 0) := by
  cases hscan : insertScan id now cache 0 with
  | noop =>
    simp only [hcInsert, hscan]
    by_cases hid : id = local_id <;> simp [hid]
  | write idx =>
    simp only [hcInsert, hscan]
    have h := hcMult_set_le local_id
      ⟨some id, i64SatAdd now timeout_ms, some st⟩ cache idx
    have hproj : (⟨some id, i64SatAdd now timeout_ms, some st⟩ : HsSlot).local_id
        = some id := rfl
    rw [hproj] at h
    by_cases hid : id = local_id <;> simp [hid] at h ⊢ <;> omega

theorem hcMult_service_le (local_id : Nat) (now : Int) :
    ∀ cache : List HsSlot, hcMult local_id (hcService now cache) ≤ hcMult local_id cache := by
  intro cache
  induction cache with
  | nil => simp [hcService, hcMult]
  | cons s rest ih =>
    simp only [hcService, List.map_cons, hcMult, List.countP_cons] at ih ⊢
    by_cases hcond : s.local_id.isSome = true ∧ s.timeout < now
    · simp only [if_pos hcond]
      have hz : ((fun s => decide (s.local_id = some local_id)) emptyHsSlot) = false := rfl
      simp only [hz, Bool.false_eq_true, if_false]
      omega
    · simp only [if_neg hcond]
      omega

/-- C7 amended: along every run of the cache from every starting state, the
number of successful `remove local_id` calls is at most the number of
`insert local_id` calls plus the number of slots initially storing
`local_id`; in particular, from a state not containing `local_id`, removal
succeeds at most once per insertion. -/
theorem hcRemove_at_most_once_per_insert (timeout_ms : Int) (local_id : Nat) :
    ∀ (ops : List HcOp) (cache : List HsSlot),
      hcRemoveSuccesses timeout_ms local_id cache ops
        ≤ hcInsertCount local_id ops + hcMult local_id cache := by
  intro ops
  induction ops with
  | nil => intro cache; simp [hcRemoveSuccesses]
  | cons op rest ih =>
    intro cache
    cases op with
    | insert id st now =>
      have h2 := hcMult_insert_le local_id id st now timeout_ms cache
      rcases eq_or_ne id local_id with hid | hid
      · subst hid
        have h1 := ih (hcInsert cache id st now timeout_ms)
        simp only [hcRemoveSuccesses, hcStep, hcInsertCount]
        rw [if_pos trivial]
        rw [if_pos rfl] at h2
        omega
      · have h1 := ih (hcInsert cache id st now timeout_ms)
        simp only [hcRemoveSuccesses, hcStep, hcInsertCount]
        rw [if_neg hid]
        rw [if_neg hid] at h2
        omega
    | remove id =>
      have h1 := ih (hcRemove id cache).2
      have h2 := hcMult_remove id local_id cache
      simp only [hcRemoveSuccesses, hcStep, hcInsertCount]
      by_cases hc : id = local_id ∧ (hcRemove id cache).1 = true
      · rw [if_pos hc]
        rw [if_pos hc] at h2
        omega
      · rw [if_neg hc]
        rw [if_neg hc] at h2
        omega
    | service now =>
      have h1 := ih (hcService now cache)
      have h2 := hcMult_service_le local_id now cache
      simp only [hcRemoveSuccesses, hcStep, hcInsertCount]
      omega

/-- C8 counterexample: on the post-authentication path an already-accepted
counter (`update_counter_window` returning false after a successful decrypt)
is rejected with `ExpiredCounter` marked `unnatural = true`, not natural as
the claim states for both paths (src/zeta.rs line 1374). -/
theorem received_payload_expired_counter_counterexample :
    received_payload_in_place (List.replicate 16 0) (some false) true true false
        = .error ⟨.expiredCounter, true⟩ ∧
    (⟨.expiredCounter, true⟩ : Fault) ≠ ⟨.expiredCounter, false⟩ := by
  exact ⟨rfl, by decide⟩

/-- C8 amended: a counter rejected by the pre-filter window check on a
counter-range packet yields `ExpiredCounter` with `unnatural = false`
(natural), while a counter rejected by the post-authentication
`update_counter_window` call in `received_payload_in_place` yields
`ExpiredCounter` with `unnatural = true`. -/
theorem expired_counter_fault_flags (max_skip_ahead : Nat) (pt : PacketType)
    (beta_is_a1 : Bool) (c : Nat) (payload : List Nat) (is_other : Bool)
    (hpt : usesCounterRange pt = true)
    (hlen : AES_GCM_TAG_SIZE ≤ payload.length) :
    receivePrefilter max_skip_ahead pt beta_is_a1 c false
        = some ⟨.expiredCounter, false⟩ ∧
    received_payload_in_place payload (some is_other) true true false
        = .error ⟨.expiredCounter, true⟩ := by
  constructor
  · have hne : pt ≠ .handshakeResponse := by
      intro h
      subst h
      simp [usesCounterRange] at hpt
    rw [receivePrefilter, if_neg hne, if_pos hpt]
    simp
  · rw [received_payload_in_place, if_neg (by omega)]
    simp

/-- Witness for the amended C8 at packet type DATA and a 16-byte payload. -/
theorem expired_counter_fault_flags_witness :
    usesCounterRange .data = true ∧
    AES_GCM_TAG_SIZE ≤ (List.replicate 16 0).length ∧
    receivePrefilter 128 .data true 5 false = some ⟨.expiredCounter, false⟩ := by
  refine ⟨by decide, by decide, ?_⟩
  exact (expired_counter_fault_flags 128 .data true 5 (List.replicate 16 0) false
    (by decide) (by decide)).1

/-- C9 counterexample: a single-fragment X3 of assembled size 4178, which
exceeds `HANDSHAKE_COMPLETION_MAX_SIZE` (4177), passes both size gates and
is not rejected with `InvalidPacket` (src/zssp.rs lines 439-441 perform no
capacity check for a single fragment and src/zeta.rs line 632 checks only
the minimum size). -/
theorem x3_oversized_single_fragment_counterexample :
    HANDSHAKE_COMPLETION_MAX_SIZE < (List.replicate 4178 0).length ∧
    x3SizeChecks [List.replicate 4178 0] = .ok (List.replicate 4178 0) := by
  have hlen : (List.replicate 4178 (0 : Nat)).length = 4178 :=
    List.length_replicate 4178 0
  have hsingle : ¬ 1 < ([List.replicate 4178 (0 : Nat)] : List (List Nat)).length := by
    simp only [List.length_cons, List.length_nil]
    omega
  have hassemble : x3Assemble [List.replicate 4178 0]
      = .ok (List.replicate 4178 0) := by
    rw [x3Assemble, if_neg hsingle]
    simp only [List.flatten_cons, List.flatten_nil, List.append_nil]
  constructor
  · rw [hlen]
    norm_num [HANDSHAKE_COMPLETION_MAX_SIZE, P384_PUBLIC_KEY_SIZE, AES_GCM_TAG_SIZE,
      IDENTITY_MAX_SIZE]
  · simp only [x3SizeChecks, hassemble]
    rw [receivedX3SizeGate, if_neg]
    rw [hlen]
    norm_num [HANDSHAKE_COMPLETION_MIN_SIZE, P384_PUBLIC_KEY_SIZE, AES_GCM_TAG_SIZE]

/-- C9 amended: an X3 assembled from more than one fragment whose assembled
size exceeds `HANDSHAKE_COMPLETION_MAX_SIZE` is rejected with
`InvalidPacket`; a single-fragment X3 is subject only to the minimum-size
check and passes the size gates regardless of how large it is. -/
theorem x3_oversize_rejection :
    (∀ fragments : List (List Nat), 1 < fragments.length →
      HANDSHAKE_COMPLETION_MAX_SIZE < (fragments.map List.length).sum →
      x3SizeChecks fragments = .error ⟨.invalidPacket, true⟩) ∧
    (∀ x3 : List Nat, HANDSHAKE_COMPLETION_MIN_SIZE ≤ x3.length →
      x3SizeChecks [x3] = .ok x3) := by
  constructor
  · intro fragments hmulti hover
    have hassemble : x3Assemble fragments = .error ⟨.invalidPacket, true⟩ := by
      rw [x3Assemble, if_pos hmulti, if_neg (by omega)]
    simp only [x3SizeChecks, hassemble]
  · intro x3 hmin
    have hsingle : ¬ 1 < ([x3] : List (List Nat)).length := by
      simp only [List.length_cons, List.length_nil]
      omega
    have hassemble : x3Assemble [x3] = .ok x3 := by
      rw [x3Assemble, if_neg hsingle]
      simp only [List.flatten_cons, List.flatten_nil, List.append_nil]
    simp only [x3SizeChecks, hassemble]
    rw [receivedX3SizeGate, if_neg (by omega)]

/-- Witness for the amended C9: a two-fragment X3 of total size 4200 is
rejected, and a single-fragment X3 of size 100 passes. -/
theorem x3_oversize_rejection_witness :
    (1 < ([List.replicate 2100 0, List.replicate 2100 0] : List (List Nat)).length ∧
      HANDSHAKE_COMPLETION_MAX_SIZE
        < (([List.replicate 2100 0, List.replicate 2100 0] : List (List Nat)).map
            List.length).sum ∧
      x3SizeChecks [List.replicate 2100 0, List.replicate 2100 0]
        = .error ⟨.invalidPacket, true⟩) ∧
    (HANDSHAKE_COMPLETION_MIN_SIZE ≤ (List.replicate 100 0).length ∧
      x3SizeChecks [List.replicate 100 0] = .ok (List.replicate 100 0)) := by
  have hmulti : 1 < ([List.replicate 2100 0, List.replicate 2100 0]
      : List (List Nat)).length := by
    simp only [List.length_cons, List.length_nil]
    omega
  have hsum : (([List.replicate 2100 0, List.replicate 2100 0]
      : List (List Nat)).map List.length).sum = 4200 := by
    simp only [List.map_cons, List.map_nil, List.sum_cons, List.sum_nil,
      List.length_replicate]
    norm_num
  have hover : HANDSHAKE_COMPLETION_MAX_SIZE
      < (([List.replicate 2100 0, List.replicate 2100 0]
          : List (List Nat)).map List.length).sum := by
    rw [hsum]
    norm_num [HANDSHAKE_COMPLETION_MAX_SIZE, P384_PUBLIC_KEY_SIZE, AES_GCM_TAG_SIZE,
      IDENTITY_MAX_SIZE]
  have hmin : HANDSHAKE_COMPLETION_MIN_SIZE ≤ (List.replicate 100 (0 : Nat)).length := by
    rw [List.length_replicate]
    norm_num [HANDSHAKE_COMPLETION_MIN_SIZE, P384_PUBLIC_KEY_SIZE, AES_GCM_TAG_SIZE]
  exact ⟨⟨hmulti, hover,
      x3_oversize_rejection.1 [List.replicate 2100 0, List.replicate 2100 0] hmulti hover⟩,
    ⟨hmin, x3_oversize_rejection.2 (List.replicate 100 0) hmin⟩⟩

theorem received_x2_inner_save_error (s1 s2 : Int) (o : X2Oracle) (dis : Bool)
    (e : Nat) (st : MutableState) (ctr : Nat)
    (hbeta : st.beta = .a1) (hre : o.read_e_ok = true) (hee : o.dh_ee_ok = true)
    (hek : o.decrypt_ekem1_ok = true) (hdec : o.decap_ok = true)
    (hse : o.dh_se_ok = true) (k : Nat)
    (htrial : (tryRatchetKeys o.test_ratchet_key st.ratchet_state1 st.ratchet_state2
      dis).found = some k) :
    received_x2_inner s1 s2 o dis (.error e) st ctr = .error (.ratchetIoError e) := by
  rw [received_x2_inner, if_neg (by simp [hbeta]), if_neg (by simp [hre]),
    if_neg (by simp [hee]), if_neg (by simp [hek]), if_neg (by simp [hdec]), htrial]
  simp [hse]

theorem received_x2_inner_no_ok (s1 s2 : Int) (o : X2Oracle) (dis : Bool)
    (e : Nat) (st : MutableState) (ctr : Nat) (v : MutableState × Nat) :
    received_x2_inner s1 s2 o dis (.error e) st ctr ≠ .ok v := by
  intro h
  rw [received_x2_inner] at h
  repeat' split at h
  all_goals simp_all

theorem received_k1_inner_save_error (s1 s2 : Int) (o : K1Oracle) (e : Nat)
    (st : MutableState) (ctr : Nat)
    (hre : o.read_e_ok = true) (hes : o.dh_es_ok = true) (hss : o.dh_ss_ok = true)
    (hdp : o.decrypt_payload_ok = true) (k : Nat) (hks : o.kid_send = some k)
    (hee : o.dh_ee_ok = true) (hse : o.dh_se_ok = true) :
    received_k1_inner s1 s2 o (.error e) st ctr = .error (.ratchetIoError e) := by
  rw [received_k1_inner, if_neg (by simp [hre]), if_neg (by simp [hes]),
    if_neg (by simp [hss]), if_neg (by simp [hdp]), hks]
  simp [hee, hse]

theorem received_k1_inner_no_ok (s1 s2 : Int) (o : K1Oracle) (e : Nat)
    (st : MutableState) (ctr : Nat) (v : MutableState × Nat × List SentPacket) :
    received_k1_inner s1 s2 o (.error e) st ctr ≠ .ok v := by
  intro h
  rw [received_k1_inner] at h
  repeat' split at h
  all_goals simp_all

theorem received_k2_inner_save_error (s1 s2 : Int) (o : K2Oracle) (e : Nat)
    (st : MutableState) (ctr : Nat)
    (hre : o.read_e_ok = true) (hee : o.dh_ee_ok = true) (hse : o.dh_se_ok = true)
    (hdp : o.decrypt_payload_ok = true) (k : Nat) (hks : o.kid_send = some k) :
    received_k2_inner s1 s2 o (.error e) st ctr = .error (.ratchetIoError e) := by
  rw [received_k2_inner, if_neg (by simp [hre]), if_neg (by simp [hee]),
    if_neg (by simp [hse]), if_neg (by simp [hdp]), hks]

theorem received_k2_inner_no_ok (s1 s2 : Int) (o : K2Oracle) (e : Nat)
    (st : MutableState) (ctr : Nat) (v : MutableState × Nat × List SentPacket) :
    received_k2_inner s1 s2 o (.error e) st ctr ≠ .ok v := by
  intro h
  rw [received_k2_inner] at h
  repeat' split at h
  all_goals simp_all

/-- C1: for each of the three receive transitions that derive a new ratchet
state (X2, K1, K2), if `save_ratchet_state` returns an error then the
transition returns the storage error, the mutable session state (key slots,
ratchet states, automaton variant, timers — the whole `MutableState`, plus
the send counter for K1/K2) is unchanged, and nothing is handed to the send
closure; and on every run with a failed save, no packet computed under the
newly derived keys is handed to the send closure (for X2 the abstract
timeout transition is assumed to send only old-key packets, which is what
`timeout_trans` does: it resends X1 or expires), so `save_ratchet_state`
has returned Ok before any new-key packet is emitted. -/
theorem ratchet_save_gates_transitions :
    (∀ (s1 s2 : Int) (o : X2Oracle) (dis : Bool) (e : Nat)
        (tt : MutableState → MutableState × List SentPacket)
        (st : MutableState) (ctr kid k : Nat),
      st.beta = .a1 →
      some kid = (st.key_ref true).recv.kid →
      o.read_e_ok = true → o.dh_ee_ok = true → o.decrypt_ekem1_ok = true →
      o.decap_ok = true → o.dh_se_ok = true →
      (tryRatchetKeys o.test_ratchet_key st.ratchet_state1 st.ratchet_state2
        dis).found = some k →
      received_x2_trans s1 s2 o dis (.error e) tt st ctr kid true true
        = (.error (.ratchetIoError e), st, [])) ∧
    (∀ (s1 s2 : Int) (o : X2Oracle) (dis : Bool) (e : Nat)
        (tt : MutableState → MutableState × List SentPacket)
        (st : MutableState) (ctr kid : Nat) (len ce : Bool),
      (∀ s, ∀ q ∈ (tt s).2, q.usesNewKeys = false) →
      ∀ p ∈ (received_x2_trans s1 s2 o dis (.error e) tt st ctr kid len ce).2.2,
        p.usesNewKeys = false) ∧
    (∀ (s1 s2 : Int) (o : K1Oracle) (e : Nat) (st : MutableState) (wb : Bool)
        (ctr kid k : Nat),
      some kid = (st.key_ref false).recv.kid →
      (match st.beta with | .s2 => true | .r1 => wb | _ => false) = true →
      o.read_e_ok = true → o.dh_es_ok = true → o.dh_ss_ok = true →
      o.decrypt_payload_ok = true → o.kid_send = some k →
      o.dh_ee_ok = true → o.dh_se_ok = true →
      received_k1_trans s1 s2 o (.error e) st wb ctr kid true true true
        = (.error (.ratchetIoError e), st, ctr, [])) ∧
    (∀ (s1 s2 : Int) (o : K1Oracle) (e : Nat) (st : MutableState) (wb : Bool)
        (ctr kid : Nat) (len dec upd : Bool),
      ∀ p ∈ (received_k1_trans s1 s2 o (.error e) st wb ctr kid len dec upd).2.2.2,
        p.usesNewKeys = false) ∧
    (∀ (s1 s2 : Int) (o : K2Oracle) (e : Nat) (st : MutableState)
        (ctr kid k : Nat),
      some kid = (st.key_ref false).recv.kid →
      st.beta = .r1 →
      o.read_e_ok = true → o.dh_ee_ok = true → o.dh_se_ok = true →
      o.decrypt_payload_ok = true → o.kid_send = some k →
      received_k2_trans s1 s2 o (.error e) st ctr kid true true true
        = (.error (.ratchetIoError e), st, ctr, [])) ∧
    (∀ (s1 s2 : Int) (o : K2Oracle) (e : Nat) (st : MutableState)
        (ctr kid : Nat) (len dec upd : Bool),
      ∀ p ∈ (received_k2_trans s1 s2 o (.error e) st ctr kid len dec upd).2.2.2,
        p.usesNewKeys = false) := by
  refine ⟨?_, ?_, ?_, ?_, ?_, ?_⟩
  · intro s1 s2 o dis e tt st ctr kid k hbeta hkid hre hee hek hdec hse htrial
    have hinner := received_x2_inner_save_error s1 s2 o dis e st ctr hbeta hre hee
      hek hdec hse k htrial
    rw [received_x2_trans, if_neg (by simp), if_neg (not_not_intro hkid),
      if_neg (by simp), hinner]
  · intro s1 s2 o dis e tt st ctr kid len ce htt p hp
    rw [received_x2_trans] at hp
    by_cases h1 : ¬ len = true
    · rw [if_pos h1] at hp
      simp at hp
    · rw [if_neg h1] at hp
      by_cases h2 : ¬ some kid = (st.key_ref true).recv.kid
      · rw [if_pos h2] at hp
        simp at hp
      · rw [if_neg h2] at hp
        by_cases h3 : ¬ ce = true
        · rw [if_pos h3] at hp
          simp at hp
        · rw [if_neg h3] at hp
          cases hinner : received_x2_inner s1 s2 o dis (.error e) st ctr with
          | error err =>
            cases err with
            | byzantineFault f =>
              rw [hinner] at hp
              simp at hp
              exact htt st p hp
            | ratchetIoError e2 =>
              rw [hinner] at hp
              simp at hp
          | ok v =>
            exact absurd hinner (received_x2_inner_no_ok s1 s2 o dis e st ctr v)
  · intro s1 s2 o e st wb ctr kid k hkid hrole hre hes hss hdp hks hee hse
    have hinner := received_k1_inner_save_error s1 s2 o e st ctr hre hes hss hdp
      k hks hee hse
    rw [received_k1_trans, if_neg (by simp), if_neg (not_not_intro hkid),
      if_neg (not_not_intro hrole), if_neg (by simp), if_neg (by simp), hinner]
  · intro s1 s2 o e st wb ctr kid len dec upd p hp
    rw [received_k1_trans] at hp
    by_cases h1 : ¬ len = true
    · rw [if_pos h1] at hp
      simp at hp
    · rw [if_neg h1] at hp
      by_cases h2 : ¬ some kid = (st.key_ref false).recv.kid
      · rw [if_pos h2] at hp
        simp at hp
      · rw [if_neg h2] at hp
        by_cases h3 : ¬ (match st.beta with | .s2 => true | .r1 => wb | _ => false) = true
        · rw [if_pos h3] at hp
          simp at hp
        · rw [if_neg h3] at hp
          by_cases h4 : ¬ dec = true
          · rw [if_pos h4] at hp
            simp at hp
          · rw [if_neg h4] at hp
            by_cases h5 : ¬ upd = true
            · rw [if_pos h5] at hp
              simp at hp
            · rw [if_neg h5] at hp
              cases hinner : received_k1_inner s1 s2 o (.error e) st ctr with
              | error err =>
                cases err with
                | byzantineFault f =>
                  rw [hinner] at hp
                  simp at hp
                | ratchetIoError e2 =>
                  rw [hinner] at hp
                  simp at hp
              | ok v =>
                exact absurd hinner (received_k1_inner_no_ok s1 s2 o e st ctr v)
  · intro s1 s2 o e st ctr kid k hkid hbeta hre hee hse hdp hks
    have hinner := received_k2_inner_save_error s1 s2 o e st ctr hre hee hse hdp
      k hks
    rw [received_k2_trans, if_neg (by simp), if_neg (not_not_intro hkid),
      if_neg (not_not_intro hbeta), if_neg (by simp), if_neg (by simp), hinner]
  · intro s1 s2 o e st ctr kid len dec upd p hp
    rw [received_k2_trans] at hp
    by_cases h1 : ¬ len = true
    · rw [if_pos h1] at hp
      simp at hp
    · rw [if_neg h1] at hp
      by_cases h2 : ¬ some kid = (st.key_ref false).recv.kid
      · rw [if_pos h2] at hp
        simp at hp
      · rw [if_neg h2] at hp
        by_cases h3 : ¬ st.beta = .r1
        · rw [if_pos h3] at hp
          simp at hp
        · rw [if_neg h3] at hp
          by_cases h4 : ¬ dec = true
          · rw [if_pos h4] at hp
            simp at hp
          · rw [if_neg h4] at hp
            by_cases h5 : ¬ upd = true
            · rw [if_pos h5] at hp
              simp at hp
            · rw [if_neg h5] at hp
              cases hinner : received_k2_inner s1 s2 o (.error e) st ctr with
              | error err =>
                cases err with
                | byzantineFault f =>
                  rw [hinner] at hp
                  simp at hp
                | ratchetIoError e2 =>
                  rw [hinner] at hp
                  simp at hp
              | ok v =>
                exact absurd hinner (received_k2_inner_no_ok s1 s2 o e st ctr v)

theorem received_x2_inner_ok (s1 s2 : Int) (o : X2Oracle) (dis : Bool)
    (st : MutableState) (ctr : Nat) (k : Nat)
    (hbeta : st.beta = .a1) (hre : o.read_e_ok = true) (hee : o.dh_ee_ok = true)
    (hek : o.decrypt_ekem1_ok = true) (hdec : o.decap_ok = true)
    (hse : o.dh_se_ok = true)
    (htrial : (tryRatchetKeys o.test_ratchet_key st.ratchet_state1 st.ratchet_state2
      dis).found = some k) :
    received_x2_inner s1 s2 o dis (.ok ()) st ctr
        = .ok (x2SuccessState s1 s2 o dis st ctr k, k) ∧
      ((x2SuccessState s1 s2 o dis st ctr k).key_ref true).send.kid = some k ∧
      (x2SuccessState s1 s2 o dis st ctr k).beta = .a3 := by
  refine ⟨?_, ?_, rfl⟩
  · rw [received_x2_inner, if_neg (by simp [hbeta]), if_neg (by simp [hre]),
      if_neg (by simp [hee]), if_neg (by simp [hek]), if_neg (by simp [hdec]), htrial]
    simp [hse]
  · cases hki : st.key_index <;>
      simp [x2SuccessState, MutableState.key_ref, MutableState.setKey, hki]

theorem received_x2_inner_trial_failed (s1 s2 : Int) (o : X2Oracle) (dis : Bool)
    (save : Except Nat Unit) (st : MutableState) (ctr : Nat)
    (hbeta : st.beta = .a1) (hre : o.read_e_ok = true) (hee : o.dh_ee_ok = true)
    (hek : o.decrypt_ekem1_ok = true) (hdec : o.decap_ok = true)
    (htrial : (tryRatchetKeys o.test_ratchet_key st.ratchet_state1 st.ratchet_state2
      dis).found = none) :
    received_x2_inner s1 s2 o dis save st ctr
      = .error (.byzantineFault ⟨.failedAuth, true⟩) := by
  rw [received_x2_inner, if_neg (by simp [hbeta]), if_neg (by simp [hre]),
    if_neg (by simp [hee]), if_neg (by simp [hek]), if_neg (by simp [hdec]), htrial]

/-- C3: the ratchet key trial of `received_x2_trans` tries, in this exact
order, the key of `ratchet_state1`, then the key of `ratchet_state2` when
present, then the all-zero key but only when the application does not
disallow downgrades; its outcome is the first key that authenticates
(`List.findSome?` over that candidate list). If none authenticates, the
transition returns a FailedAuth Byzantine fault; if one does, the
transition (with the remaining steps succeeding) stores the kid decrypted
under that key in the next key slot and moves the automaton to `A3`. -/
theorem x2_ratchet_trial_order :
    (∀ (test : List Nat → Option Nat) (rs1 : RatchetState)
        (rs2 : Option RatchetState) (dis : Bool),
      (tryRatchetKeys test rs1 rs2 dis).found
        = ((rs1.key :: (rs2.map RatchetState.key).toList)
            ++ if dis then [] else [zeroRatchetKey]).findSome? test) ∧
    (∀ (s1 s2 : Int) (o : X2Oracle) (dis : Bool) (save : Except Nat Unit)
        (tt : MutableState → MutableState × List SentPacket)
        (st : MutableState) (ctr kid : Nat),
      st.beta = .a1 →
      some kid = (st.key_ref true).recv.kid →
      o.read_e_ok = true → o.dh_ee_ok = true → o.decrypt_ekem1_ok = true →
      o.decap_ok = true →
      (tryRatchetKeys o.test_ratchet_key st.ratchet_state1 st.ratchet_state2
        dis).found = none →
      (received_x2_trans s1 s2 o dis save tt st ctr kid true true).1
        = .error (.byzantineFault ⟨.failedAuth, true⟩)) ∧
    (∀ (s1 s2 : Int) (o : X2Oracle) (dis : Bool)
        (tt : MutableState → MutableState × List SentPacket)
        (st : MutableState) (ctr kid k : Nat),
      st.beta = .a1 →
      some kid = (st.key_ref true).recv.kid →
      o.read_e_ok = true → o.dh_ee_ok = true → o.decrypt_ekem1_ok = true →
      o.decap_ok = true → o.dh_se_ok = true →
      (tryRatchetKeys o.test_ratchet_key st.ratchet_state1 st.ratchet_state2
        dis).found = some k →
      (((received_x2_trans s1 s2 o dis (.ok ()) tt st ctr kid true
            true).2.1.key_ref true).send.kid = some k ∧
        (received_x2_trans s1 s2 o dis (.ok ()) tt st ctr kid true
            true).2.1.beta = .a3)) := by
  refine ⟨?_, ?_, ?_⟩
  · intro test rs1 rs2 dis
    cases h1 : test rs1.key with
    | some k =>
      cases rs2 with
      | none => simp [tryRatchetKeys, h1, List.findSome?]
      | some rs => simp [tryRatchetKeys, h1, List.findSome?]
    | none =>
      cases rs2 with
      | none =>
        cases dis with
        | true => simp [tryRatchetKeys, h1, List.findSome?, Option.toList]
        | false =>
          simp [tryRatchetKeys, h1, List.findSome?, Option.toList]
          cases h3 : test zeroRatchetKey <;> simp [h3]
      | some rs =>
        cases h2 : test rs.key with
        | some k =>
          cases dis <;> simp [tryRatchetKeys, h1, h2, List.findSome?, Option.toList]
        | none =>
          cases dis with
          | true => simp [tryRatchetKeys, h1, h2, List.findSome?, Option.toList]
          | false =>
            simp [tryRatchetKeys, h1, h2, List.findSome?, Option.toList]
            cases h3 : test zeroRatchetKey <;> simp [h3]
  · intro s1 s2 o dis save tt st ctr kid hbeta hkid hre hee hek hdec htrial
    have hinner := received_x2_inner_trial_failed s1 s2 o dis save st ctr hbeta
      hre hee hek hdec htrial
    rw [received_x2_trans, if_neg (by simp), if_neg (not_not_intro hkid),
      if_neg (by simp), hinner]
  · intro s1 s2 o dis tt st ctr kid k hbeta hkid hre hee hek hdec hse htrial
    obtain ⟨hst2, hkid2, hbeta2⟩ := received_x2_inner_ok s1 s2 o dis st ctr k
      hbeta hre hee hek hdec hse htrial
    constructor
    · rw [received_x2_trans, if_neg (by simp), if_neg (not_not_intro hkid),
        if_neg (by simp), hst2]
      exact hkid2
    · rw [received_x2_trans, if_neg (by simp), if_neg (not_not_intro hkid),
        if_neg (by simp), hst2]
      exact hbeta2

/-- Witness for C3: at the concrete `A1` state, with every candidate key
authenticating kid 7, the transition stores kid 7 and moves to `A3`; with
no candidate authenticating, it returns the FailedAuth fault. -/
theorem x2_ratchet_trial_order_witness :
    (((received_x2_trans 250 10000 witX2Oracle false (.ok ())
          (fun s => (s, [])) witX2St 0 4 true true).2.1.key_ref
        true).send.kid = some 7 ∧
      (received_x2_trans 250 10000 witX2Oracle false (.ok ())
          (fun s => (s, [])) witX2St 0 4 true true).2.1.beta = .a3) ∧
    (received_x2_trans 250 10000 witX2OracleFail false (.ok ())
        (fun s => (s, [])) witX2St 0 4 true true).1
      = .error (.byzantineFault ⟨.failedAuth, true⟩) := by
  constructor
  · exact x2_ratchet_trial_order.2.2 250 10000 witX2Oracle false
      (fun s => (s, [])) witX2St 0 4 7 rfl rfl rfl rfl rfl rfl rfl rfl
  · exact x2_ratchet_trial_order.2.1 250 10000 witX2OracleFail false (.ok ())
      (fun s => (s, [])) witX2St 0 4 rfl rfl rfl rfl rfl rfl rfl

/-- Witness for C1: all three transitions at concrete states and oracles
with a failing save return the storage error untouched, and hand no packet
to the send closure. -/
theorem ratchet_save_gates_transitions_witness :
    received_x2_trans 250 10000 witX2Oracle false (.error 3) (fun s => (s, []))
        witX2St 0 4 true true = (.error (.ratchetIoError 3), witX2St, []) ∧
    received_k1_trans 250 60000 witK1Oracle (.error 3) witK1St false 0 9 true true true
        = (.error (.ratchetIoError 3), witK1St, 0, []) ∧
    received_k2_trans 250 60000 witK2Oracle (.error 3) witK2St 0 9 true true true
        = (.error (.ratchetIoError 3), witK2St, 0, []) ∧
    (∀ p ∈ (received_x2_trans 250 10000 witX2Oracle false (.error 3)
        (fun s => (s, [])) witX2St 0 4 true true).2.2, p.usesNewKeys = false) ∧
    (∀ p ∈ (received_k1_trans 250 60000 witK1Oracle (.error 3) witK1St false 0 9
        true true true).2.2.2, p.usesNewKeys = false) ∧
    (∀ p ∈ (received_k2_trans 250 60000 witK2Oracle (.error 3) witK2St 0 9
        true true true).2.2.2, p.usesNewKeys = false) := by
  refine ⟨?_, ?_, ?_, ?_, ?_, ?_⟩
  · exact ratchet_save_gates_transitions.1 250 10000 witX2Oracle false 3
      (fun s => (s, [])) witX2St 0 4 7 rfl rfl rfl rfl rfl rfl rfl rfl
  · exact ratchet_save_gates_transitions.2.2.1 250 60000 witK1Oracle 3 witK1St
      false 0 9 11 rfl rfl rfl rfl rfl rfl rfl rfl rfl
  · exact ratchet_save_gates_transitions.2.2.2.2.1 250 60000 witK2Oracle 3
      witK2St 0 9 11 rfl rfl rfl rfl rfl rfl rfl
  · exact ratchet_save_gates_transitions.2.1 250 10000 witX2Oracle false 3
      (fun s => (s, [])) witX2St 0 4 true true
      (fun s q hq => absurd hq (List.not_mem_nil q))
  · exact ratchet_save_gates_transitions.2.2.2.1 250 60000 witK1Oracle 3 witK1St
      false 0 9 true true true
  · exact ratchet_save_gates_transitions.2.2.2.2.2 250 60000 witK2Oracle 3
      witK2St 0 9 true true true

end ZSSP
